import Mathlib

/-!
Shallow embedding of the hacker-news-async-graphql server (Rust sources
`src/client.rs`, `src/main.rs`, `src/types.rs`).

Modelling conventions:
- `u32`/`u64`/`usize` become `Nat`; the program performs no arithmetic on them
  (ids are only formatted, compared and used as map keys), so wrap-around never
  matters.
- The network behind the shared `reqwest::Client` is an oracle
  `env : Upstream` giving, for each item id, the outcome the upstream HTTP
  exchange would produce in the current batch window: `Except.ok (some v)`
  for a decoded item, `Except.ok none` for a JSON `null` body, and
  `Except.error e` for a transport or decode failure.
- Effectful code is embedded by explicit state passing: every HTTP-issuing
  function also threads a log `List HttpCall` of the outbound GET requests it
  performed, appended in issue order.
- `async`/`join_all` concurrency is embedded as a deterministic traversal; the
  log records which calls were issued, not their wall-clock interleaving.
-/

set_option autoImplicit false

namespace HN

/-! ## Data model (`src/types.rs`) -/

/-- A story (`types.rs`, struct `Story`). The Rust field `by` is renamed `by_`
because `by` is a Lean keyword. -/
structure Story where
  id : Nat
  descendants : Nat
  by_ : String
  kids : Option (List Nat)
  score : Nat
  title : String
  url : Option String
  text : Option String
  time : Nat
  deriving DecidableEq, Repr

/-- A comment (`types.rs`, struct `Comment`). -/
structure Comment where
  id : Nat
  by_ : String
  kids : Option (List Nat)
  parent : Nat
  text : String
  time : Nat
  deriving DecidableEq, Repr

/-- A job (`types.rs`, struct `Job`). -/
structure Job where
  id : Nat
  score : Nat
  text : Option String
  time : Nat
  title : String
  url : Option String
  deriving DecidableEq, Repr

/-- A poll (`types.rs`, struct `Poll`). -/
structure Poll where
  id : Nat
  by_ : String
  descendants : Nat
  kids : Option (List Nat)
  parts : Option (List Nat)
  score : Nat
  title : String
  text : Option String
  time : Nat
  deriving DecidableEq, Repr

/-- A poll option (`types.rs`, struct `Pollopt`). -/
structure Pollopt where
  id : Nat
  by_ : String
  poll : Nat
  score : Nat
  text : Option String
  time : Nat
  deriving DecidableEq, Repr

/-- The tagged union of API items (`types.rs`, enum `Item`). -/
inductive Item where
  | story : Story → Item
  | comment : Comment → Item
  | job : Job → Item
  | poll : Poll → Item
  | pollopt : Pollopt → Item
  deriving DecidableEq, Repr

/-! ## Errors

Modelled from the spec: the repository's `result` module (`src/result.rs`,
declared by `mod result` in `main.rs`) is not among the provided sources. Per
the spec's error-handling taxonomy it distinguishes a `TransportError`
(network failure / timeout reaching upstream) from a `DecodeError` (response
body does not parse into an expected shape); `NotFound` is not an error but
the `Ok(None)` outcome. -/
inductive FetchError where
  | transport
  | decode
  deriving DecidableEq, Repr

/-- Equality of `Except` outcomes is decidable componentwise (needed to
evaluate the embedding at concrete inputs). -/
instance {ε α : Type} [DecidableEq ε] [DecidableEq α] :
    DecidableEq (Except ε α) := fun x y =>
  match x, y with
  | Except.ok a, Except.ok b =>
      if h : a = b then isTrue (by rw [h])
      else isFalse (by intro hc; injection hc; contradiction)
  | Except.error a, Except.error b =>
      if h : a = b then isTrue (by rw [h])
      else isFalse (by intro hc; injection hc; contradiction)
  | Except.ok _, Except.error _ => isFalse (by intro hc; injection hc)
  | Except.error _, Except.ok _ => isFalse (by intro hc; injection hc)

/-- The upstream oracle for one batch window: the outcome `get_item` would
observe for each item id. -/
def Upstream : Type := Nat → Except FetchError (Option Item)

/-! ## HTTP client (`src/client.rs`) -/

/-- Base URL of the upstream API (`client.rs`, `API_BASE_URL`). -/
def API_BASE_URL : String := "https://hacker-news.firebaseio.com/v0"

/-- One outbound GET request, identified by endpoint and arguments. -/
inductive HttpCall where
  | getItem (id : Nat)
  | getTopStories
  deriving DecidableEq, Repr

/-- The URL a call is issued against, following the `format!` strings of
`client.rs`. -/
def HttpCall.url : HttpCall → String
  | .getItem id => API_BASE_URL ++ "/item/" ++ toString id ++ ".json"
  | .getTopStories => API_BASE_URL ++ "/topstories.json"

/-- The configuration of the underlying `reqwest::Client`; the model keeps the
only knob the source sets, the overall per-request timeout in seconds. -/
structure ReqwestClient where
  timeoutSecs : Nat
  deriving DecidableEq, Repr

/-- The API client (`client.rs`, struct `HnClient`). -/
structure HnClient where
  client : ReqwestClient
  deriving DecidableEq, Repr

/-- `HnClient::init` (`client.rs` lines 20-25): builds the shared client with
a 10-second overall timeout. The builder's failure mode (TLS backend
initialisation) is outside the model, so the `Result` is always `Ok`. -/
def HnClient.init : Except FetchError HnClient :=
  Except.ok { client := { timeoutSecs := 10 } }

/-- `HnClient::get_item` (`client.rs` lines 30-38): issues one
`GET {API_BASE_URL}/item/{id}.json` and returns the decoded outcome; both
`?` operators forward any upstream error unchanged. The network behaviour of
`self.client` is the oracle `env`; the issued call is appended to the log. -/
def HnClient.get_item (env : Upstream) (id : Nat) (calls : List HttpCall) :
    Except FetchError (Option Item) × List HttpCall :=
  (env id, calls ++ [HttpCall.getItem id])

/-- `HnClient::get_top_stories` (`client.rs` lines 67-75): issues one
`GET {API_BASE_URL}/topstories.json`; the decoded id list (or error) the
exchange would produce is the parameter `tops`. -/
def HnClient.get_top_stories (tops : Except FetchError (List Nat))
    (calls : List HttpCall) : Except FetchError (List Nat) × List HttpCall :=
  (tops, calls ++ [HttpCall.getTopStories])

/-! ## Batch loader (`src/client.rs`, `impl Loader<u32> for ItemLoader`) -/

/-- `ItemLoader` (`client.rs` lines 144-146). -/
structure ItemLoader where
  client : HnClient
  deriving DecidableEq, Repr

/-- The `join_all` of the per-key `get_item` futures built in
`ItemLoader::load` (`client.rs` lines 154-160): one `get_item` per key of the
slice, each future yielding the pair `(id, outcome)`. The embedding runs the
traversal sequentially in slice order; the log records exactly which calls
were issued. -/
def joinAllGetItems (env : Upstream) :
    List Nat → List HttpCall →
      List (Nat × Except FetchError (Option Item)) × List HttpCall
  | [], calls => ([], calls)
  | id :: rest, calls =>
      let r := HnClient.get_item env id calls
      let t := joinAllGetItems env rest r.2
      ((id, r.1) :: t.1, t.2)

/-- `ItemLoader::load` (`client.rs` lines 153-167): maps every key of the
slice to a `get_item` call, awaits them all, and collects into the result map
exactly the pairs whose outcome is `Ok(Some(val))`; the function itself always
returns `Ok` (its error type `()` is never constructed). The Rust `HashMap` is
represented as the association list of its entries; the `DataLoader` only ever
passes slices of distinct keys, so the entries' keys are distinct and only the
(unspecified) iteration order is abstracted elsewhere. -/
def ItemLoader.load (env : Upstream) (keys : List Nat) (calls : List HttpCall) :
    Except Unit (List (Nat × Item)) × List HttpCall :=
  let results := joinAllGetItems env keys calls
  (Except.ok (results.1.filterMap fun p =>
    match p.2 with
    | Except.ok (some val) => some (p.1, val)
    | _ => none), results.2)

/-- The pure value of the result map `ItemLoader::load` builds from the
outcomes of a key slice: the `filter_map` of `client.rs` lines 161-166 applied
to the per-key outcomes. -/
def resultMap (env : Upstream) (keys : List Nat) : List (Nat × Item) :=
  (keys.map fun id => (id, env id)).filterMap fun p =>
    match p.2 with
    | Except.ok (some val) => some (p.1, val)
    | _ => none

/-! ## DataLoader front end

Modelled from the spec: the `async_graphql::dataloader::DataLoader` wrapper
installed in `main.rs` line 24 is an external crate, not part of `src/`. Per
the spec's batch-loader state machine, it merges the keys submitted in one
window into "one deduplicated set", issues "one Fetcher call per distinct
key" by invoking `ItemLoader::load` once on that set, and resolves callers
from the resulting Result Map. Its `load_many` therefore performs one
`ItemLoader::load` call on the deduplicated keys and hands the caller the
Result Map itself — a key-to-value `HashMap`, which is how both resolvers in
`src/` consume it (`main.rs` line 81 and `types.rs` line 81 destructure its
entries as `(_, v)` pairs). The window is modelled as containing exactly this
call's keys; the deduplicated set is modelled as `List.dedup` (upstream
iterates a `HashSet`, whose order is unspecified; no settled claim depends on
which representative order is chosen). -/
def DataLoader.load_many (env : Upstream) (keys : List Nat)
    (calls : List HttpCall) : Except Unit (List (Nat × Item)) × List HttpCall :=
  ItemLoader.load env keys.dedup calls

/-! ## Resolvers (`src/main.rs`, `src/types.rs`)

The Rust resolvers iterate the returned `HashMap` with `.into_iter()`, whose
order is unspecified (std `HashMap` iteration order is arbitrary and varies
between processes). The embedding makes that explicit: the resolvers take an
`order` function standing for the map's iteration order, and theorems
quantify over every `order` that permutes the entries. The `.unwrap()` on the
loader result is embedded as `Option`: `none` models the panic branch. -/

/-- `Query::top` (`main.rs` lines 65-83): defaults `limit` to 10, fetches the
top-story id list (propagating its error via `?`), takes the first `limit`
ids, batch-loads them, and collects the values of the returned map in
iteration order. -/
def Query.top (order : List (Nat × Item) → List (Nat × Item)) (env : Upstream)
    (tops : Except FetchError (List Nat)) (limit : Option Nat)
    (calls : List HttpCall) :
    Option (Except FetchError (List Item)) × List HttpCall :=
  let limit := limit.getD 10
  let t := HnClient.get_top_stories tops calls
  match t.1 with
  | Except.error e => (some (Except.error e), t.2)
  | Except.ok allIds =>
      let ids := allIds.take limit
      let r := DataLoader.load_many env ids t.2
      match r.1 with
      | Except.error _ => (none, r.2)
      | Except.ok m => (some (Except.ok ((order m).map Prod.snd)), r.2)

/-- `Story::kids_connection` (`types.rs` lines 65-83): defaults `limit` to
`usize::default()` which is `0`, takes the first `limit` kid ids (an absent
`kids` field defaulting to the empty list), batch-loads them, and collects
the values of the returned map in iteration order. The Rust return type is
`Result<Vec<Item>>` but no error is ever produced (there is no `?`), so the
embedding keeps only the `.unwrap()` panic branch as `none`. -/
def Story.kids_connection (order : List (Nat × Item) → List (Nat × Item))
    (env : Upstream) (self : Story) (limit : Option Nat)
    (calls : List HttpCall) : Option (List Item) × List HttpCall :=
  let limit := limit.getD 0
  let kids := (self.kids.getD []).take limit
  let r := DataLoader.load_many env kids calls
  match r.1 with
  | Except.error _ => (none, r.2)
  | Except.ok m => (some ((order m).map Prod.snd), r.2)

/-! ## Concrete witnesses -/

/-- An upstream where every id decodes to a distinct story. -/
def sampleStory (id : Nat) : Story :=
  { id := id, descendants := 0, by_ := "alice", kids := none, score := 1,
    title := "t", url := none, text := none, time := 0 }

/-- Oracle: every id resolves to `Ok(Some(story))`. -/
def envStory : Upstream := fun id => Except.ok (some (Item.story (sampleStory id)))

/-- Oracle: every id resolves to `Ok(None)` (upstream JSON `null`). -/
def envNull : Upstream := fun _ => Except.ok none

/-! ## Structural lemmas -/

/-- Running the joined `get_item` futures yields each key's oracle outcome and
logs exactly one `getItem` call per key, in slice order. -/
theorem joinAllGetItems_eq (env : Upstream) (keys : List Nat)
    (calls : List HttpCall) :
    joinAllGetItems env keys calls =
      (keys.map fun id => (id, env id), calls ++ keys.map HttpCall.getItem) := by
  induction keys generalizing calls with
  | nil => simp [joinAllGetItems]
  | cons id rest ih =>
      simp [joinAllGetItems, HnClient.get_item, ih, List.append_assoc]

/-- `ItemLoader::load` returns `Ok` of the result map of its key slice and
logs exactly one `getItem` call per key of the slice. -/
theorem ItemLoader.load_eq (env : Upstream) (keys : List Nat)
    (calls : List HttpCall) :
    ItemLoader.load env keys calls =
      (Except.ok (resultMap env keys), calls ++ keys.map HttpCall.getItem) := by
  simp [ItemLoader.load, joinAllGetItems_eq, resultMap]

/-- Membership in the result map characterises exactly the keys whose fetch
returned `Ok(Some _)`. -/
theorem mem_resultMap (env : Upstream) (keys : List Nat) (k : Nat) (v : Item) :
    (k, v) ∈ resultMap env keys ↔ k ∈ keys ∧ env k = Except.ok (some v) := by
  simp only [resultMap, List.mem_filterMap, List.mem_map]
  constructor
  · rintro ⟨p, ⟨id, hid, rfl⟩, hf⟩
    cases h : env id with
    | error e => simp [h] at hf
    | ok o =>
        cases o with
        | none => simp [h] at hf
        | some w =>
            simp only [h] at hf
            rcases Option.some.injEq .. ▸ hf with hpair
            rcases Prod.mk.injEq .. ▸ hpair with ⟨hk, hv⟩
            subst hk
            subst hv
            exact ⟨hid, h⟩
  · rintro ⟨hk, hv⟩
    exact ⟨(k, env k), ⟨k, hk, rfl⟩, by simp [hv]⟩

/-! ## Claim theorems -/

/-- C1: within one batch window, `ItemLoader::load` applied to a slice of
distinct keys issues exactly one `get_item` fetch per key of the slice (its
call log grows by precisely the slice, so each distinct key is counted once),
and the window as a whole issues exactly `|unique(K)|` upstream item fetches
however often a key was repeated in the submitted keys. -/
theorem load_fetches_each_distinct_key_once (env : Upstream) (keys : List Nat)
    (calls : List HttpCall) :
    (ItemLoader.load env keys calls).2 = calls ++ keys.map HttpCall.getItem ∧
    (keys.Nodup → ∀ k ∈ keys,
      (ItemLoader.load env keys calls).2.count (HttpCall.getItem k)
        = calls.count (HttpCall.getItem k) + 1) ∧
    (DataLoader.load_many env keys calls).2.length
      = calls.length + keys.dedup.length := by
  have hinj : Function.Injective HttpCall.getItem := by
    intro a b h
    injection h
  refine ⟨?_, ?_, ?_⟩
  · rw [ItemLoader.load_eq]
  · intro hnd k hk
    rw [ItemLoader.load_eq, List.count_append,
      List.count_map_of_injective keys HttpCall.getItem hinj k,
      List.count_eq_one_of_mem hnd hk]
  · rw [DataLoader.load_many, ItemLoader.load_eq]
    simp

/-- Witness for C1 at the concrete window `[1, 2, 3]` with an all-`null`
upstream: key 2 is fetched exactly once. -/
theorem load_fetches_each_distinct_key_once_witness :
    (ItemLoader.load envNull [1, 2, 3] []).2.count (HttpCall.getItem 2)
      = ([] : List HttpCall).count (HttpCall.getItem 2) + 1 :=
  (load_fetches_each_distinct_key_once envNull [1, 2, 3] []).2.1
    (by decide) 2 (by decide)

/-- C3: the Result Map built by `ItemLoader::load` contains exactly the pairs
`(k, v)` whose fetch returned `Ok(Some(v))`; a key whose fetch errored or
returned `None` is absent, failures do not disturb the other keys, and the
loader surfaces no error value (its result is always `Ok`). -/
theorem load_result_map_exactly_successful (env : Upstream) (keys : List Nat)
    (calls : List HttpCall) :
    ∃ m, (ItemLoader.load env keys calls).1 = Except.ok m ∧
      ∀ k v, ((k, v) ∈ m ↔ k ∈ keys ∧ env k = Except.ok (some v)) := by
  refine ⟨resultMap env keys, ?_, fun k v => mem_resultMap env keys k v⟩
  rw [ItemLoader.load_eq]

/-- C4: `get_item(id)` issues exactly one GET, against
`{API_BASE_URL}/item/{id}.json`, and returns precisely the upstream outcome:
`Ok(None)` when upstream responds with JSON `null`, a transport error on
network failure or timeout, a decode error when the body matches no expected
item shape. The equation holds for every `id`, so the id is not validated. -/
theorem get_item_single_get_and_outcome (env : Upstream) (id : Nat)
    (calls : List HttpCall) :
    HnClient.get_item env id calls = (env id, calls ++ [HttpCall.getItem id]) ∧
    (HttpCall.getItem id).url = API_BASE_URL ++ "/item/" ++ toString id ++ ".json" :=
  ⟨rfl, rfl⟩

/-- C6: the loader holds no cache across windows: running `ItemLoader::load`
for a second window whose slice contains `k`, starting from the call log left
by a first window that already fetched `k`, issues a fresh `get_item(k)` — the
log ends up holding at least two fetches of `k`. -/
theorem load_refetches_same_key_across_windows (env1 env2 : Upstream)
    (keys1 keys2 : List Nat) (k : Nat) (h1 : k ∈ keys1) (h2 : k ∈ keys2) :
    2 ≤ ((ItemLoader.load env2 keys2
        ((ItemLoader.load env1 keys1 []).2)).2).count (HttpCall.getItem k) := by
  rw [ItemLoader.load_eq, ItemLoader.load_eq]
  simp only [List.nil_append, List.count_append]
  have c1 : 0 < (keys1.map HttpCall.getItem).count (HttpCall.getItem k) :=
    List.count_pos_iff.mpr (List.mem_map_of_mem _ h1)
  have c2 : 0 < (keys2.map HttpCall.getItem).count (HttpCall.getItem k) :=
    List.count_pos_iff.mpr (List.mem_map_of_mem _ h2)
  omega

/-- Witness for C6: two successive windows both containing key 5 fetch it
twice in total. -/
theorem load_refetches_same_key_across_windows_witness :
    2 ≤ ((ItemLoader.load envStory [5]
        ((ItemLoader.load envNull [5, 1] []).2)).2).count (HttpCall.getItem 5) :=
  load_refetches_same_key_across_windows envNull envStory [5, 1] [5] 5
    (by decide) (by decide)

/-- C7: the 10-second overall timeout is configured once, when `HnClient::init`
builds the shared client, and every Fetcher call issues exactly one HTTP
request — no retry — with the upstream outcome (error included) propagating
unchanged as the outcome of that one call. -/
theorem init_timeout_ten_and_no_retry :
    HnClient.init = Except.ok { client := { timeoutSecs := 10 } } ∧
    (∀ (env : Upstream) (id : Nat) (calls : List HttpCall),
      HnClient.get_item env id calls = (env id, calls ++ [HttpCall.getItem id])) ∧
    (∀ (tops : Except FetchError (List Nat)) (calls : List HttpCall),
      HnClient.get_top_stories tops calls
        = (tops, calls ++ [HttpCall.getTopStories])) :=
  ⟨rfl, fun _ _ _ => rfl, fun _ _ => rfl⟩

/-- C2 counterexample: `load_many([k1, k2, k1, k3])` does not return a
4-position sequence aligned with the input keys — it returns the window's
key-to-value map, which for the input `[1, 2, 1, 3]` (every fetch succeeding)
has 3 entries, one per distinct key. -/
theorem load_many_not_positional_counterexample :
    (match (DataLoader.load_many envStory [1, 2, 1, 3] []).1 with
     | Except.ok m => m.length
     | Except.error _ => 0) ≠ 4 := by
  decide

/-- C2 amended: `load_many` returns the Result Map of the deduplicated input
keys — one `(key, value)` entry per distinct input key whose fetch returned
`Ok(Some _)`, keys absent from the Result Map being omitted entirely rather
than reported as per-position `None` — not a positional sequence. -/
theorem load_many_returns_dedup_result_map (env : Upstream) (keys : List Nat)
    (calls : List HttpCall) :
    (DataLoader.load_many env keys calls).1
      = Except.ok (resultMap env keys.dedup) ∧
    ∀ k v, ((k, v) ∈ resultMap env keys.dedup
      ↔ k ∈ keys ∧ env k = Except.ok (some v)) := by
  constructor
  · rw [DataLoader.load_many, ItemLoader.load_eq]
  · intro k v
    rw [mem_resultMap]
    simp [List.mem_dedup]

/-- C5 counterexample: the top-N resolver does not guarantee an output ordered
like the first N ids. For top ids `[101, 102, 103]`, limit 2, every fetch
succeeding, the map iteration order `List.reverse` — a permutation of the
entries, hence an admissible `HashMap` iteration order — yields the items of
102 and 101 in that order, not the claimed `[item 101, item 102]`. -/
theorem top_output_order_counterexample :
    (Query.top List.reverse envStory (Except.ok [101, 102, 103]) (some 2) []).1
      = some (Except.ok
          [Item.story (sampleStory 102), Item.story (sampleStory 101)]) ∧
    (Query.top List.reverse envStory (Except.ok [101, 102, 103]) (some 2) []).1
      ≠ some (Except.ok
          [Item.story (sampleStory 101), Item.story (sampleStory 102)]) ∧
    (List.reverse (resultMap envStory ([101, 102, 103].take 2).dedup)).Perm
      (resultMap envStory ([101, 102, 103].take 2).dedup) := by
  refine ⟨by decide, by decide, by decide⟩

/-- C5 amended: with the topstories endpoint returning an ordered id list, the
resolver takes the first N ids (N = limit, default 10), batch-loads exactly
that id set (one topstories call plus one `get_item` per distinct taken id),
and yields the successfully fetched items as a permutation of the Result
Map's values — the multiset of fetched items is exact, but the order is the
map's unspecified iteration order, not the id order. -/
theorem top_yields_fetched_items_up_to_order
    (order : List (Nat × Item) → List (Nat × Item)) (env : Upstream)
    (ids : List Nat) (limit : Option Nat) (calls : List HttpCall)
    (hord : ∀ m, (order m).Perm m) :
    (Query.top order env (Except.ok ids) limit calls).1
      = some (Except.ok
          ((order (resultMap env (ids.take (limit.getD 10)).dedup)).map
            Prod.snd)) ∧
    ((order (resultMap env (ids.take (limit.getD 10)).dedup)).map Prod.snd).Perm
      ((resultMap env (ids.take (limit.getD 10)).dedup).map Prod.snd) ∧
    (Query.top order env (Except.ok ids) limit calls).2
      = calls ++ [HttpCall.getTopStories]
          ++ (ids.take (limit.getD 10)).dedup.map HttpCall.getItem := by
  refine ⟨?_, (hord _).map Prod.snd, ?_⟩
  · simp [Query.top, HnClient.get_top_stories, DataLoader.load_many,
      ItemLoader.load_eq]
  · simp [Query.top, HnClient.get_top_stories, DataLoader.load_many,
      ItemLoader.load_eq]

/-- Witness for C5 (amended) at ids `[101, 102, 103]`, limit 2, identity
iteration order. -/
theorem top_yields_fetched_items_up_to_order_witness :
    (Query.top (fun m => m) envStory (Except.ok [101, 102, 103]) (some 2) []).1
      = some (Except.ok
          (((fun (m : List (Nat × Item)) => m)
              (resultMap envStory (([101, 102, 103].take 2)).dedup)).map
            Prod.snd)) :=
  (top_yields_fetched_items_up_to_order (fun m => m) envStory [101, 102, 103]
    (some 2) [] (fun m => List.Perm.refl m)).1

/-- C9: `ItemLoader::load` never returns `Err` (its error type `()` is never
constructed; every per-key failure is absorbed by the `filter_map`), so the
`.unwrap()` on the `load_many` result never panics in either resolver: both
`Query::top` and `Story::kids_connection` always produce a value. -/
theorem load_never_errs_unwrap_never_panics
    (order : List (Nat × Item) → List (Nat × Item)) (env : Upstream)
    (keys : List Nat) (tops : Except FetchError (List Nat))
    (limit : Option Nat) (story : Story) (calls : List HttpCall) :
    (∃ m, (ItemLoader.load env keys calls).1 = Except.ok m) ∧
    (∃ r, (Query.top order env tops limit calls).1 = some r) ∧
    (∃ l, (Story.kids_connection order env story limit calls).1 = some l) := by
  refine ⟨⟨resultMap env keys, by rw [ItemLoader.load_eq]⟩, ?_, ?_⟩
  · cases tops with
    | error e =>
        exact ⟨Except.error e, by simp [Query.top, HnClient.get_top_stories]⟩
    | ok allIds =>
        refine ⟨Except.ok ((order (resultMap env
          ((allIds.take (limit.getD 10)).dedup))).map Prod.snd), ?_⟩
        simp [Query.top, HnClient.get_top_stories, DataLoader.load_many,
          ItemLoader.load_eq]
  · refine ⟨(order (resultMap env
      (((story.kids.getD []).take (limit.getD 0)).dedup))).map Prod.snd, ?_⟩
    simp [Story.kids_connection, DataLoader.load_many, ItemLoader.load_eq]

/-- C10: an omitted `limit` on `kids_connection` defaults to
`usize::default() = 0`, so the resolver loads no child ids (the call log is
unchanged) and returns the empty list, behaving exactly like `limit = 0`;
whereas `Query::top` defaults an omitted `limit` to 10. -/
theorem kids_connection_default_limit_zero
    (order : List (Nat × Item) → List (Nat × Item)) (env : Upstream)
    (story : Story) (tops : Except FetchError (List Nat))
    (calls : List HttpCall) (hord : ∀ m, (order m).Perm m) :
    (Story.kids_connection order env story none calls).1 = some [] ∧
    (Story.kids_connection order env story none calls).2 = calls ∧
    Story.kids_connection order env story none
      = Story.kids_connection order env story (some 0) ∧
    Query.top order env tops none = Query.top order env tops (some 10) := by
  have hnil : order [] = [] := (hord []).eq_nil
  refine ⟨?_, ?_, rfl, rfl⟩
  · simp [Story.kids_connection, DataLoader.load_many, ItemLoader.load_eq,
      resultMap, hnil]
  · simp [Story.kids_connection, DataLoader.load_many, ItemLoader.load_eq]

/-- Witness for C10: a concrete story with an omitted limit yields the empty
list. -/
theorem kids_connection_default_limit_zero_witness :
    (Story.kids_connection (fun m => m) envStory (sampleStory 7) none []).1
      = some [] :=
  (kids_connection_default_limit_zero (fun m => m) envStory (sampleStory 7)
    (Except.ok []) [] (fun m => List.Perm.refl m)).1

end HN
